import Mathlib

/-!
Shallow embedding of the news hot-word provider
(file `google_news_hotword_provider.py`, class `NewsHotWordProvider`).

The pure extraction/normalization pipeline is translated into executable
Lean definitions.  Python strings are modelled as Lean `String`
(a list of Unicode scalar values, which matches Python code-point
semantics for `len`, slicing and iteration); all character-level work is
done on `List Char`.  Network transport, file persistence and logging
are outside the modelled core (the Python code reaches the pipeline with
already-decoded text).  The two regex scanners of `parse_yahoo_html`
are represented by the lists of capture-group tuples they produce on the
document: each strategy is embedded as the exact per-match loop body the
source runs on those captures (cleaning, filtering, capping, rebasing).
-/

namespace NewsHotWordProvider

/-! ## Character-level helpers (Python string primitives) -/

/-- Python whitespace for `str.strip` and the regex class used by
`clean_title`, restricted to the ASCII range actually exercised here:
space, tab, newline, carriage return, vertical tab, form feed. -/
def pyIsSpace (c : Char) : Bool :=
  c == ' ' || c == '\t' || c == '\n' || c == '\x0d' ||
  c == Char.ofNat 11 || c == Char.ofNat 12

/-- Python `str.lower` on one character, for the ASCII letters that the
exclusion lists compare against (non-ASCII characters are kept). -/
def lowerC (c : Char) : Char :=
  if 'A' ≤ c ∧ c ≤ 'Z' then Char.ofNat (c.toNat + 32) else c

/-- Python `str.lower` over a whole string (as a character list). -/
def pyLowerL (l : List Char) : List Char := l.map lowerC

/-- Python `str.strip`: drop leading and trailing whitespace
(`List.rdropWhile` drops from the tail end). -/
def pyStripL (l : List Char) : List Char :=
  List.rdropWhile pyIsSpace (l.dropWhile pyIsSpace)

/-- Python `str.strip` at `String` level. -/
def pyStrip (s : String) : String := String.mk (pyStripL s.toList)

/-- Python `str.startswith` test, as a prefix check on character lists. -/
def isPrefL : List Char → List Char → Bool
  | [], _ => true
  | _ :: _, [] => false
  | a :: pa, b :: l => a == b && isPrefL pa l

/-- Python `str.startswith`: does `s` start with `pre`? -/
def pyStartsWith (s pre : String) : Bool := isPrefL pre.toList s.toList

/-- Python substring containment (the `in` operator on strings). -/
def isSubL (pat : List Char) : List Char → Bool
  | [] => pat.isEmpty
  | b :: t => isPrefL pat (b :: t) || isSubL pat t

/-- Index of the last occurrence of `c` in `l`, if any. -/
def lastIdxOf (c : Char) : List Char → Option Nat
  | [] => none
  | a :: l =>
    match lastIdxOf c l with
    | some i => some (i + 1)
    | none => if a = c then some 0 else none

/-! ## `html.unescape`

`clean_title` starts with Python `html.unescape`.  Its fast path —
return the string unchanged when it holds no `&` — is modelled exactly;
the slow path (character-reference substitution) is modelled for numeric
references and the common named entities.  The full HTML5 entity table
(thousands of names, optional-semicolon longest-match lookup) is not
reproduced: every theorem below that depends on `clean_title` either is
evaluated on concrete `&`-free inputs or carries an explicit
no-`&` hypothesis, so only the exact fast path is ever on the proof
path. -/

/-- Named character references recognised by the model. -/
def namedRefs : List (List Char × Char) :=
  [("amp".toList, '&'), ("lt".toList, '<'), ("gt".toList, '>'),
   ("quot".toList, '"'), ("apos".toList, '\x27'), ("nbsp".toList, ' ')]

def isHexDigitC (c : Char) : Bool :=
  c.isDigit || ('a' ≤ c && c ≤ 'f') || ('A' ≤ c && c ≤ 'F')

def hexVal (c : Char) : Nat :=
  if c.isDigit then c.toNat - 48
  else if 'a' ≤ c ∧ c ≤ 'f' then c.toNat - 87
  else c.toNat - 55

def decimalVal (l : List Char) : Nat := l.foldl (fun n c => n * 10 + (c.toNat - 48)) 0

def hexValL (l : List Char) : Nat := l.foldl (fun n c => n * 16 + hexVal c) 0

/-- Turn a code point into a character, `U+FFFD` when out of range. -/
def charOfCodePoint (n : Nat) : Char :=
  if h : n.isValidChar then Char.ofNatAux n h else '�'

/-- Try to read one character reference directly after a `&`.
Returns the decoded character and the number of input characters
consumed.  Numeric `&#...;` / `&#x...;` forms and the table of
`namedRefs` (with mandatory semicolon) are recognised. -/
def tryRef (l : List Char) : Option (Char × Nat) :=
  match l with
  | '#' :: rest =>
    match rest with
    | x :: rest2 =>
      if x == 'x' || x == 'X' then
        let digits := rest2.takeWhile isHexDigitC
        if digits.isEmpty then none
        else if (rest2.drop digits.length).head? == some ';' then
          some (charOfCodePoint (hexValL digits), digits.length + 3)
        else none
      else
        let digits := rest.takeWhile Char.isDigit
        if digits.isEmpty then none
        else if (rest.drop digits.length).head? == some ';' then
          some (charOfCodePoint (decimalVal digits), digits.length + 2)
        else none
    | [] => none
  | _ =>
    let name := l.takeWhile Char.isAlphanum
    if name.isEmpty then none
    else if (l.drop name.length).head? == some ';' then
      match namedRefs.find? (fun r => r.1 == name) with
      | some r => some (r.2, name.length + 1)
      | none => none
    else none

/-- Substitution pass of `html.unescape` over a character list. -/
def unescapeRefsL : List Char → List Char
  | [] => []
  | '&' :: rest =>
    match tryRef rest with
    | some cn => cn.1 :: unescapeRefsL (rest.drop cn.2)
    | none => '&' :: unescapeRefsL rest
  | c :: rest => c :: unescapeRefsL rest
termination_by l => l.length
decreasing_by
  · simp only [List.length_drop, List.length_cons]; omega
  · simp only [List.length_cons]; omega
  · simp only [List.length_cons]; omega

/-- Python `html.unescape`: identity when the string holds no `&`,
otherwise the reference-substitution pass. -/
def unescapeL (l : List Char) : List Char :=
  if '&' ∈ l then unescapeRefsL l else l

/-! ## Text Normalizer (`clean_title`) -/

/-- Effect of `re.sub(r'\s*-\s*[^-]*$', '', ·)` (the second pattern of
`clean_title`).  The regex can only match a suffix whose dash is the
last dash of the string (nothing after it may contain `-`), preceded
from the match start by whitespace only; `re.sub` removes the leftmost
such suffix, i.e. everything from the whitespace run before the last
dash to the end.  So: no dash, no change; otherwise cut at the last
dash and drop the whitespace left of it. -/
def subDash (l : List Char) : List Char :=
  match lastIdxOf '-' l with
  | none => l
  | some q => List.rdropWhile pyIsSpace (l.take q)

/-- Effect of `re.sub(r'\s*\|\s*[^|]*\s*-\s*[^-]*$', '', ·)` (the first
pattern of `clean_title`).  A match needs a `|` at position `p` and a
dash at position `q > p` with no `|` strictly between them and no `-`
after `q`; hence `q` is the last dash of the string and `p` the last
pipe before it, and the removed suffix starts at the whitespace run
before `p`.  No dash, or no pipe before the last dash: no change. -/
def subPipeDash (l : List Char) : List Char :=
  match lastIdxOf '-' l with
  | none => l
  | some q =>
    match lastIdxOf '|' (l.take q) with
    | none => l
    | some p => List.rdropWhile pyIsSpace (l.take p)

/-- Body of `clean_title` on a non-empty title: unescape, strip, the
two ordered regex substitutions, strip again. -/
def clean_titleL (l : List Char) : List Char :=
  pyStripL (subDash (subPipeDash (pyStripL (unescapeL l))))

/-- `clean_title`: the guard `if not title: return title` followed by
the cleaning pipeline. -/
def clean_title (s : String) : String :=
  if s.toList.isEmpty then s else String.mk (clean_titleL s.toList)

/-- `clean_title` lifted to an optional title, mirroring that the
Python guard `if not title` also covers a `None` argument. -/
def clean_title_opt : Option String → Option String
  | none => none
  | some t => some (clean_title t)

/-! ## Exclusion Filters -/

/-- The `exclude_patterns` list of `should_exclude_text`. -/
def exclude_patterns : List String :=
  ["很抱歉，您使用的瀏覽器版本過低",
   "建議改用",
   "Yahoo Chrome, Firefox, Microsoft Edge",
   "Google Chrome, Firefox, Microsoft Edge",
   "以獲得最佳瀏覽經驗",
   "Manage history",
   "{notificationCenterNavMsg}",
   "瀏覽器版本過低",
   "最佳瀏覽經驗",
   "browser version",
   "Internet Explorer"]

/-- `should_exclude_text`: empty text, boilerplate phrases
(case-insensitive substring test) and titles whose stripped length is
below 5 are rejected. -/
def should_exclude_text (text : String) : Bool :=
  if text = "" then true
  else if exclude_patterns.any
      (fun p => isSubL (pyLowerL p.toList) (pyLowerL text.toList)) then true
  else if (pyStripL text.toList).length < 5 then true
  else false

/-- The `exclude_url_patterns` list of `should_exclude_url`
(the patterns are already lower case in the source). -/
def exclude_url_patterns : List String :=
  ["javascript:", "mailto:", "#",
   "microsoft.com/zh-tw/download/internet-explorer",
   "download/internet-explorer"]

/-- `should_exclude_url`: empty urls and urls whose lower-cased form
holds a denylist substring are rejected; the final scheme test is a
case-sensitive `startswith` on the original url, exactly as in the
source (`url.startswith('http://') or url.startswith('https://')`). -/
def should_exclude_url (url : String) : Bool :=
  if url = "" then true
  else if exclude_url_patterns.any
      (fun p => isSubL p.toList (pyLowerL url.toList)) then true
  else if !(pyStartsWith url "http://" || pyStartsWith url "https://") then true
  else false

/-! ## Records and constants -/

/-- The class constants. -/
def YAHOO_NEWS_URL : String := "https://tw.news.yahoo.com/"

def GOOGLE_NEWS_URL : String := "https://news.google.com/rss?hl=zh-TW&gl=TW&ceid=TW:zh-Hant"

def GOOGLE_NEWS_WEB_URL : String := "https://news.google.com/home?hl=zh-TW&gl=TW&ceid=TW:zh-Hant"

def MAX_NEWS_ITEMS : Nat := 15

/-- One accepted news record: the dict appended to `news_array`,
with the six keys the source writes. -/
structure NewsItem where
  text : String
  url : String
  h5_url : String
  appIconUrl : String
  sourceUniqueId : String
  package : String
deriving DecidableEq, Repr

/-- A Yahoo record as built in `parse_yahoo_html`. -/
def mkYahooItem (title url : String) : NewsItem :=
  ⟨title, url, url, "", "content_yahoo", ""⟩

/-- A Google record as built in `fetch_google_news_rss`. -/
def mkGoogleItem (title url : String) : NewsItem :=
  ⟨title, url, url, "", "content_google", ""⟩

/-! ## Structured Feed Extractor (`fetch_google_news_rss`)

The XML side is abstracted to the list of `<item>` elements in document
order; each item is the pair of its `<title>` text and `<link>` text,
`none` standing for a missing child element or a `None` text (both are
skipped by the same guards in the source). -/

/-- Loop body of `fetch_google_news_rss` for one item: require both
fields present and non-empty, clean the title, drop it when the Title
Filter rejects it, otherwise append a Google record.  The source never
applies `should_exclude_url` on this path. -/
def rssStep (item : Option String × Option String) (arr : List NewsItem) : List NewsItem :=
  match item with
  | (some t, some l) =>
    if t ≠ "" ∧ l ≠ "" then
      let title := clean_title t
      if should_exclude_text title then arr
      else arr ++ [mkGoogleItem title l]
    else arr
  | _ => arr

/-- `fetch_google_news_rss` after the transport layer: the source
iterates `items[:MAX_NEWS_ITEMS]` — the slice is taken before any
filtering. -/
def fetch_google_news_rss (items : List (Option String × Option String)) : List NewsItem :=
  (items.take MAX_NEWS_ITEMS).foldl (fun arr it => rssStep it arr) []

/-- Modelled from the spec: the Structured Feed Extractor as §4.3 words
it — iterate over all items in document order and stop after
`MAX_ITEMS` accepted records or after exhausting the document,
whichever comes first.  (The source instead slices the item list to 15
before filtering; this definition exists to compare the two.) -/
def fetch_rss_spec_loop : List (Option String × Option String) → List NewsItem → List NewsItem
  | [], arr => arr
  | it :: rest, arr =>
    if MAX_NEWS_ITEMS ≤ arr.length then arr
    else fetch_rss_spec_loop rest (rssStep it arr)

/-- Modelled from the spec: entry point of the spec-worded feed
extractor. -/
def fetch_rss_spec (items : List (Option String × Option String)) : List NewsItem :=
  fetch_rss_spec_loop items []

/-! ## Tiered Markup Extractor (`parse_yahoo_html`)

The three regex scans are abstracted to the lists of capture tuples the
patterns produce on the document, in match order: strategy A and C
capture `(href, text)`, strategy B captures `(class, href, text)`.
Each strategy is the exact per-match loop of the source, including the
`len(news_array) >= MAX_NEWS_ITEMS` break at the top of each iteration. -/

/-- One strategy loop: stop (`break`) as soon as the array holds
`MAX_NEWS_ITEMS` records, else run the per-match body and continue. -/
def stratLoop {α : Type} (step : α → List NewsItem → List NewsItem) :
    List α → List NewsItem → List NewsItem
  | [], arr => arr
  | m :: ms, arr =>
    if MAX_NEWS_ITEMS ≤ arr.length then arr
    else stratLoop step ms (step m arr)

/-- Strategy A loop body: clean the captured text, apply the Title
Filter then the Link Filter, append when both pass and both fields are
non-empty. -/
def stepA (m : String × String) (arr : List NewsItem) : List NewsItem :=
  let url := m.1
  let title := clean_title m.2
  if should_exclude_text title then arr
  else if should_exclude_url url then arr
  else if title ≠ "" ∧ url ≠ "" then arr ++ [mkYahooItem title url]
  else arr

/-- Strategy B loop body: same as A, on the second and third capture
groups (the first group is the matched class attribute). -/
def stepB (m : String × String × String) (arr : List NewsItem) : List NewsItem :=
  let url := m.2.1
  let title := clean_title m.2.2
  if should_exclude_text title then arr
  else if should_exclude_url url then arr
  else if title ≠ "" ∧ url ≠ "" then arr ++ [mkYahooItem title url]
  else arr

/-- Truncation `if len(title) > 255: title = title[:255]` of
strategy C. -/
def truncate255 (t : String) : String :=
  if 255 < t.toList.length then String.mk (t.toList.take 255) else t

/-- Relative-link handling of strategy C: a url not starting with
`http` is rebased — `./rest` becomes base + `rest`, `/rest` becomes
base + `/rest`, anything else is left alone. -/
def resolve_relative (u : String) : String :=
  if pyStartsWith u "http" then u
  else if pyStartsWith u "./" then YAHOO_NEWS_URL ++ String.mk (u.toList.drop 2)
  else if pyStartsWith u "/" then YAHOO_NEWS_URL ++ u
  else u

/-- Strategy C loop body: truncate the raw text to 255 characters,
clean it, apply the Title Filter, rebase the link, apply the Link
Filter, append when everything passes. -/
def stepC (m : String × String) (arr : List NewsItem) : List NewsItem :=
  let title := clean_title (truncate255 m.2)
  if should_exclude_text title then arr
  else
    let url := resolve_relative m.1
    if should_exclude_url url then arr
    else if title ≠ "" ∧ url ≠ "" then arr ++ [mkYahooItem title url]
    else arr

/-- Strategy A run on an empty array, as in the source. -/
def strategyA (m1 : List (String × String)) : List NewsItem :=
  stratLoop stepA m1 []

/-- Strategy B run on an empty array. -/
def strategyB (m2 : List (String × String × String)) : List NewsItem :=
  stratLoop stepB m2 []

/-- Strategy C run on an empty array. -/
def strategyC (m3 : List (String × String)) : List NewsItem :=
  stratLoop stepC m3 []

/-- `parse_yahoo_html`: run strategy A, then strategy B only when the
array is still empty (`if len(news_array) == 0`), then strategy C only
when it is still empty. -/
def parse_yahoo_html (m1 : List (String × String))
    (m2 : List (String × String × String))
    (m3 : List (String × String)) : List NewsItem :=
  let arr1 := stratLoop stepA m1 []
  let arr2 := if arr1.length = 0 then stratLoop stepB m2 arr1 else arr1
  let arr3 := if arr2.length = 0 then stratLoop stepC m3 arr2 else arr2
  arr3

/-! ## JSON serialization

`json.dumps(obj, ensure_ascii=False, indent=2)` for the value shapes
the provider emits: objects with insertion-ordered keys, arrays,
strings (non-ASCII kept literal, the standard JSON escapes applied),
integers and booleans. -/

inductive Json where
  | str : String → Json
  | int : Int → Json
  | bool : Bool → Json
  | arr : List Json → Json
  | obj : List (String × Json) → Json
deriving Repr

def hexDigitChar (n : Nat) : Char :=
  if n < 10 then Char.ofNat (48 + n) else Char.ofNat (87 + n)

/-- The escape Python's encoder applies inside string literals when
`ensure_ascii=False`: backslash, double quote, the short control
escapes, `\u00XX` for the remaining control characters; everything
else (non-ASCII included) is written literally. -/
def escChar (c : Char) : List Char :=
  if c = '"' then ['\x5c', '"']
  else if c = '\x5c' then ['\x5c', '\x5c']
  else if c = '\n' then ['\x5c', 'n']
  else if c = '\t' then ['\x5c', 't']
  else if c = '\x0d' then ['\x5c', 'r']
  else if c = Char.ofNat 8 then ['\x5c', 'b']
  else if c = Char.ofNat 12 then ['\x5c', 'f']
  else if c.toNat < 32 then
    ['\x5c', 'u', '0', '0', hexDigitChar (c.toNat / 16), hexDigitChar (c.toNat % 16)]
  else [c]

/-- A JSON string literal. -/
def quoteJson (s : String) : String :=
  "\"" ++ String.mk ((s.toList.map escChar).flatten) ++ "\""

/-- `indent=2` indentation for nesting level `lvl`. -/
def indentStr (lvl : Nat) : String := String.mk (List.replicate (2 * lvl) ' ')

mutual

/-- Serialize one value at nesting level `lvl`. -/
def dumpJson (lvl : Nat) : Json → String
  | Json.str s => quoteJson s
  | Json.int n => toString n
  | Json.bool b => if b then "true" else "false"
  | Json.arr [] => "[]"
  | Json.arr (x :: xs) =>
    "[\n" ++ dumpElems (lvl + 1) (x :: xs) ++ "\n" ++ indentStr lvl ++ "]"
  | Json.obj [] => "\x7b\x7d"
  | Json.obj (kv :: kvs) =>
    "\x7b\n" ++ dumpFields (lvl + 1) (kv :: kvs) ++ "\n" ++ indentStr lvl ++ "\x7d"

/-- Serialize array elements, comma-newline separated. -/
def dumpElems (lvl : Nat) : List Json → String
  | [] => ""
  | [x] => indentStr lvl ++ dumpJson lvl x
  | x :: y :: xs =>
    indentStr lvl ++ dumpJson lvl x ++ ",\n" ++ dumpElems lvl (y :: xs)

/-- Serialize object fields, `"key": value`, comma-newline separated. -/
def dumpFields (lvl : Nat) : List (String × Json) → String
  | [] => ""
  | [(k, v)] => indentStr lvl ++ quoteJson k ++ ": " ++ dumpJson lvl v
  | (k, v) :: kv :: kvs =>
    indentStr lvl ++ quoteJson k ++ ": " ++ dumpJson lvl v ++ ",\n" ++
      dumpFields lvl (kv :: kvs)

end

/-! ## Aggregator and Fallback Generator -/

/-- One labeled source block of the output document. -/
structure SourceSection where
  track_id : String
  title : String
  title_icon_url : String
  headImageUrl : String
  link_type : String
  data : List NewsItem
  selectedStatus : Bool
  rank_type : String
deriving DecidableEq, Repr

def itemToJson (r : NewsItem) : Json :=
  Json.obj [("text", Json.str r.text), ("url", Json.str r.url),
    ("h5_url", Json.str r.h5_url), ("appIconUrl", Json.str r.appIconUrl),
    ("sourceUniqueId", Json.str r.sourceUniqueId), ("package", Json.str r.package)]

def sectionToJson (s : SourceSection) : Json :=
  Json.obj [("track_id", Json.str s.track_id), ("title", Json.str s.title),
    ("title_icon_url", Json.str s.title_icon_url),
    ("headImageUrl", Json.str s.headImageUrl),
    ("link_type", Json.str s.link_type),
    ("data", Json.arr (s.data.map itemToJson)),
    ("selectedStatus", Json.bool s.selectedStatus),
    ("rank_type", Json.str s.rank_type)]

/-- The Yahoo section built in `get_hot_words_json` (the source really
writes `"rank_ahoo"`). -/
def yahooSection (d : List NewsItem) : SourceSection :=
  ⟨"hq_yahoo", "Yahoo!", "", "", "app", d, false, "rank_ahoo"⟩

/-- The Google section built in `get_hot_words_json`. -/
def googleSection (d : List NewsItem) : SourceSection :=
  ⟨"hq_google", "Google", "", "", "app", d, false, "rank_google"⟩

/-- The `result` list of `get_hot_words_json`: one section per
non-empty source, Yahoo first (`if yahoo_news:` / `if google_news:`). -/
def build_result (yahoo google : List NewsItem) : List SourceSection :=
  (if yahoo.isEmpty then [] else [yahooSection yahoo]) ++
  (if google.isEmpty then [] else [googleSection google])

/-- The Yahoo block of `create_fallback_json`. -/
def fallbackYahooSection : SourceSection :=
  ⟨"hq_yahoo", "Yahoo!", "", "", "app",
    [⟨"無法訪問Yahoo新聞，請檢查網絡連接", YAHOO_NEWS_URL, YAHOO_NEWS_URL, "",
      "content_yahoo", ""⟩], false, "Yahoo"⟩

/-- The Google block of `create_fallback_json`. -/
def fallbackGoogleSection : SourceSection :=
  ⟨"hq_google", "Google", "", "", "app",
    [⟨"無法訪問Google新聞，請檢查網絡連接", GOOGLE_NEWS_WEB_URL, GOOGLE_NEWS_WEB_URL, "",
      "content_google", ""⟩], false, "Google"⟩

/-- The `fallback_data` dict of `create_fallback_json`, keys in source
order.  (The `except` branch of the Python function is unreachable:
the dict construction cannot raise.) -/
def fallbackJson : Json :=
  Json.obj [("config_id", Json.str "R-10"),
    ("updateIntervalMinutes",
      Json.obj [("2G", Json.int 20), ("3G", Json.int 20), ("4G", Json.int 20),
        ("WIFI", Json.int 20)]),
    ("result", Json.arr [sectionToJson fallbackYahooSection,
      sectionToJson fallbackGoogleSection]),
    ("hash", Json.str "news_fallback"),
    ("qt", Json.str "composite_ad_news"),
    ("message", Json.str "success"),
    ("cost", Json.int 20),
    ("status", Json.int 0)]

/-- `create_fallback_json`: the serialized static fallback document. -/
def create_fallback_json : String := dumpJson 0 fallbackJson

/-- The `response_data` dict of the success path of
`get_hot_words_json`; `cost` stands for the `random.randint(10, 50)`
draw, which is passed in as a parameter. -/
def response_json (result : List SourceSection) (cost : Nat) : Json :=
  Json.obj [("config_id", Json.str "R-10"),
    ("updateIntervalMinutes",
      Json.obj [("2G", Json.int 20), ("3G", Json.int 20), ("4G", Json.int 20),
        ("WIFI", Json.int 20)]),
    ("result", Json.arr (result.map sectionToJson)),
    ("hash", Json.str "c2d15b8822404d2ea10f48b759eadba1"),
    ("qt", Json.str "composite_ad_yahoo_google"),
    ("message", Json.str "success"),
    ("cost", Json.int cost),
    ("status", Json.int 0)]

/-- `get_hot_words_json` after the two fetchers have produced their
record lists (file persistence and the fetchers' transport are outside
the modelled core): build the section list, fall back to
`create_fallback_json` when it is empty (`if not result:`), otherwise
serialize the response dict. -/
def get_hot_words_json (yahoo google : List NewsItem) (cost : Nat) : String :=
  let result := build_result yahoo google
  if result.isEmpty then create_fallback_json
  else dumpJson 0 (response_json result cost)

/-! ## Helper lemmas about the string primitives -/

theorem dropWhile_head_false {p : Char → Bool} :
    ∀ {l t : List Char} {a : Char}, l.dropWhile p = a :: t → p a = false := by
  intro l
  induction l with
  | nil => intro t a h; simp [List.dropWhile] at h
  | cons b u ih =>
    intro t a h
    rw [List.dropWhile_cons] at h
    by_cases hb : p b
    · rw [if_pos hb] at h; exact ih h
    · rw [if_neg hb] at h
      cases h
      exact Bool.eq_false_iff.mpr hb

theorem dropWhile_eq_self_of_head {p : Char → Bool} {l : List Char}
    (h : ∀ a t, l = a :: t → p a = false) : l.dropWhile p = l := by
  cases l with
  | nil => simp
  | cons a t => rw [List.dropWhile_cons, h a t rfl]; simp

theorem head_of_pref {x y : List Char} {a : Char} {t : List Char}
    (h : x <+: y) (hx : x = a :: t) : ∃ u, y = a :: u := by
  obtain ⟨s, hs⟩ := h
  subst hx
  exact ⟨t ++ s, by simpa using hs.symm⟩

theorem pyStripL_subset {l : List Char} {a : Char} (h : a ∈ pyStripL l) : a ∈ l := by
  unfold pyStripL at h
  have hpre := List.rdropWhile_prefix pyIsSpace (l.dropWhile pyIsSpace)
  have h1 : a ∈ l.dropWhile pyIsSpace := hpre.sublist.subset h
  exact (List.dropWhile_suffix pyIsSpace).sublist.subset h1

theorem dropWhile_after_strip {l : List Char} :
    (pyStripL l).dropWhile pyIsSpace = pyStripL l := by
  apply dropWhile_eq_self_of_head
  intro a t h
  have hpre := List.rdropWhile_prefix pyIsSpace (l.dropWhile pyIsSpace)
  rw [pyStripL] at h
  obtain ⟨u, hu⟩ := head_of_pref hpre h
  exact dropWhile_head_false hu

theorem pyStripL_idem (l : List Char) : pyStripL (pyStripL l) = pyStripL l := by
  conv_lhs => rw [pyStripL, dropWhile_after_strip]
  rw [pyStripL, List.rdropWhile_idempotent]

theorem lastIdxOf_eq_none {c : Char} {l : List Char} (h : c ∉ l) :
    lastIdxOf c l = none := by
  induction l with
  | nil => rfl
  | cons a t ih =>
    simp only [List.mem_cons, not_or] at h
    rw [lastIdxOf, ih h.2, if_neg (fun hac => h.1 hac.symm)]

theorem subDash_no_dash {l : List Char} (h : '-' ∉ l) : subDash l = l := by
  rw [subDash, lastIdxOf_eq_none h]

theorem subPipeDash_no_dash {l : List Char} (h : '-' ∉ l) : subPipeDash l = l := by
  rw [subPipeDash, lastIdxOf_eq_none h]

theorem clean_titleL_no_special {l : List Char} (h1 : '&' ∉ l) (h2 : '-' ∉ l) :
    clean_titleL l = pyStripL l := by
  have hd : '-' ∉ pyStripL l := fun hm => h2 (pyStripL_subset hm)
  rw [clean_titleL, unescapeL, if_neg h1, subPipeDash_no_dash hd, subDash_no_dash hd,
    pyStripL_idem]

theorem isPrefL_iff {p : List Char} :
    ∀ {l : List Char}, isPrefL p l = true ↔ ∃ t, p ++ t = l := by
  induction p with
  | nil => intro l; simp [isPrefL]
  | cons a pa ih =>
    intro l
    cases l with
    | nil =>
      simp only [isPrefL, List.cons_append]
      constructor
      · intro h; cases h
      · rintro ⟨t, ht⟩; cases ht
    | cons b u =>
      rw [isPrefL, Bool.and_eq_true, beq_iff_eq, ih]
      constructor
      · rintro ⟨hab, t, ht⟩
        exact ⟨t, by rw [List.cons_append, hab, ht]⟩
      · rintro ⟨t, ht⟩
        rw [List.cons_append] at ht
        injection ht with hb hrest
        exact ⟨hb, t, hrest⟩

theorem isSubL_iff {p : List Char} :
    ∀ {l : List Char}, isSubL p l = true ↔ ∃ s t, s ++ p ++ t = l := by
  intro l
  induction l with
  | nil =>
    simp only [isSubL, List.isEmpty_iff]
    constructor
    · intro h; exact ⟨[], [], by simp [h]⟩
    · rintro ⟨s, t, hst⟩
      have := List.append_eq_nil.mp hst
      exact (List.append_eq_nil.mp this.1).2
  | cons b u ih =>
    rw [isSubL, Bool.or_eq_true, isPrefL_iff, ih]
    constructor
    · rintro (⟨t, ht⟩ | ⟨s, t, hst⟩)
      · exact ⟨[], t, by simpa using ht⟩
      · exact ⟨b :: s, t, by rw [← hst]; simp⟩
    · rintro ⟨s, t, hst⟩
      cases s with
      | nil => exact Or.inl ⟨t, by simpa using hst⟩
      | cons c s2 =>
        rw [List.cons_append, List.cons_append] at hst
        injection hst with hcb hrest
        exact Or.inr ⟨s2, t, hrest⟩

theorem isSubL_single_of_mem {a : Char} {l : List Char} (h : a ∈ l) :
    isSubL [a] l = true := by
  obtain ⟨s, t, hst⟩ := List.append_of_mem h
  exact isSubL_iff.mpr ⟨s, t, by simp [hst]⟩

/-! ## Helper lemmas about the filters -/

theorem strip_len_of_text_ok {t : String} (h : should_exclude_text t = false) :
    5 ≤ (pyStripL t.toList).length := by
  rw [should_exclude_text] at h
  split_ifs at h with h1 h2 h3
  · omega

theorem scheme_of_url_ok {u : String} (h : should_exclude_url u = false) :
    (pyStartsWith u "http://" || pyStartsWith u "https://") = true := by
  rw [should_exclude_url] at h
  split_ifs at h with h1 h2 h3
  by_contra hc
  apply h3
  simp only [Bool.not_eq_true] at hc
  simp [hc]

/-! ## Helper lemmas about the extractors -/

theorem stratLoop_mem {α : Type} {step : α → List NewsItem → List NewsItem}
    (Q : α → NewsItem → Prop)
    (hstep : ∀ m arr r, r ∈ step m arr → r ∈ arr ∨ Q m r) :
    ∀ (ms : List α) (arr : List NewsItem) (r : NewsItem),
      r ∈ stratLoop step ms arr → r ∈ arr ∨ ∃ m ∈ ms, Q m r := by
  intro ms
  induction ms with
  | nil =>
    intro arr r h
    rw [stratLoop] at h
    exact Or.inl h
  | cons m ms ih =>
    intro arr r h
    rw [stratLoop] at h
    by_cases hc : MAX_NEWS_ITEMS ≤ arr.length
    · rw [if_pos hc] at h; exact Or.inl h
    · rw [if_neg hc] at h
      rcases ih _ _ h with h2 | ⟨m2, hm2, hq⟩
      · rcases hstep m arr r h2 with h3 | h3
        · exact Or.inl h3
        · exact Or.inr ⟨m, List.mem_cons_self m ms, h3⟩
      · exact Or.inr ⟨m2, List.mem_cons_of_mem m hm2, hq⟩

theorem stepA_mem {m : String × String} {arr : List NewsItem} {r : NewsItem}
    (h : r ∈ stepA m arr) :
    r ∈ arr ∨ (r.text = clean_title m.2 ∧ r.url = m.1 ∧
      should_exclude_text r.text = false ∧ should_exclude_url r.url = false) := by
  rw [stepA] at h
  split_ifs at h with h1 h2 h3
  · exact Or.inl h
  · exact Or.inl h
  · rcases List.mem_append.mp h with h4 | h4
    · exact Or.inl h4
    · rw [List.mem_singleton] at h4
      subst h4
      exact Or.inr ⟨rfl, rfl, Bool.of_not_eq_true h1, Bool.of_not_eq_true h2⟩
  · exact Or.inl h

theorem stepB_mem {m : String × String × String} {arr : List NewsItem} {r : NewsItem}
    (h : r ∈ stepB m arr) :
    r ∈ arr ∨ (r.text = clean_title m.2.2 ∧ r.url = m.2.1 ∧
      should_exclude_text r.text = false ∧ should_exclude_url r.url = false) := by
  rw [stepB] at h
  split_ifs at h with h1 h2 h3
  · exact Or.inl h
  · exact Or.inl h
  · rcases List.mem_append.mp h with h4 | h4
    · exact Or.inl h4
    · rw [List.mem_singleton] at h4
      subst h4
      exact Or.inr ⟨rfl, rfl, Bool.of_not_eq_true h1, Bool.of_not_eq_true h2⟩
  · exact Or.inl h

theorem stepC_mem {m : String × String} {arr : List NewsItem} {r : NewsItem}
    (h : r ∈ stepC m arr) :
    r ∈ arr ∨ (r.text = clean_title (truncate255 m.2) ∧ r.url = resolve_relative m.1 ∧
      should_exclude_text r.text = false ∧ should_exclude_url r.url = false) := by
  simp only [stepC] at h
  split_ifs at h with h1 h2 h3
  · exact Or.inl h
  · exact Or.inl h
  · rcases List.mem_append.mp h with h4 | h4
    · exact Or.inl h4
    · rw [List.mem_singleton] at h4
      subst h4
      exact Or.inr ⟨rfl, rfl, Bool.of_not_eq_true h1, Bool.of_not_eq_true h2⟩
  · exact Or.inl h

/-- A record that passed both exclusion filters. -/
def goodRec (r : NewsItem) : Prop :=
  should_exclude_text r.text = false ∧ should_exclude_url r.url = false

theorem stratLoop_good {α : Type} {step : α → List NewsItem → List NewsItem}
    (hstep : ∀ m arr r, r ∈ step m arr → r ∈ arr ∨ goodRec r) :
    ∀ (ms : List α) (arr : List NewsItem), (∀ r2 ∈ arr, goodRec r2) →
      ∀ r ∈ stratLoop step ms arr, goodRec r := by
  intro ms
  induction ms with
  | nil =>
    intro arr harr r h
    rw [stratLoop] at h
    exact harr r h
  | cons m ms ih =>
    intro arr harr r h
    rw [stratLoop] at h
    by_cases hc : MAX_NEWS_ITEMS ≤ arr.length
    · rw [if_pos hc] at h; exact harr r h
    · rw [if_neg hc] at h
      refine ih (step m arr) ?_ r h
      intro r2 h2
      rcases hstep m arr r2 h2 with h3 | h3
      · exact harr r2 h3
      · exact h3

theorem stepA_good {m : String × String} {arr : List NewsItem} {r : NewsItem}
    (h : r ∈ stepA m arr) : r ∈ arr ∨ goodRec r := by
  rcases stepA_mem h with h2 | h2
  · exact Or.inl h2
  · exact Or.inr ⟨h2.2.2.1, h2.2.2.2⟩

theorem stepB_good {m : String × String × String} {arr : List NewsItem} {r : NewsItem}
    (h : r ∈ stepB m arr) : r ∈ arr ∨ goodRec r := by
  rcases stepB_mem h with h2 | h2
  · exact Or.inl h2
  · exact Or.inr ⟨h2.2.2.1, h2.2.2.2⟩

theorem stepC_good {m : String × String} {arr : List NewsItem} {r : NewsItem}
    (h : r ∈ stepC m arr) : r ∈ arr ∨ goodRec r := by
  rcases stepC_mem h with h2 | h2
  · exact Or.inl h2
  · exact Or.inr ⟨h2.2.2.1, h2.2.2.2⟩

/-- Records in the output of `parse_yahoo_html` passed both filters. -/
theorem parse_yahoo_html_mem {m1 : List (String × String)}
    {m2 : List (String × String × String)} {m3 : List (String × String)}
    {r : NewsItem} (h : r ∈ parse_yahoo_html m1 m2 m3) : goodRec r := by
  simp only [parse_yahoo_html] at h
  have hA : ∀ r2 ∈ stratLoop stepA m1 [], goodRec r2 :=
    stratLoop_good (fun m arr r3 h3 => stepA_good h3) m1 [] (by intro r2 h2; cases h2)
  have hB : ∀ r2 ∈ stratLoop stepB m2 (stratLoop stepA m1 []), goodRec r2 :=
    stratLoop_good (fun m arr r3 h3 => stepB_good h3) m2 _ hA
  have hC : ∀ r2 ∈ stratLoop stepC m3 (stratLoop stepB m2 (stratLoop stepA m1 [])),
      goodRec r2 :=
    stratLoop_good (fun m arr r3 h3 => stepC_good h3) m3 _ hB
  by_cases e1 : (stratLoop stepA m1 []).length = 0
  · rw [if_pos e1] at h
    by_cases e2 : (stratLoop stepB m2 (stratLoop stepA m1 [])).length = 0
    · rw [if_pos e2] at h
      exact hC r h
    · rw [if_neg e2] at h
      exact hB r h
  · rw [if_neg e1, if_neg e1] at h
    exact hA r h

/-- The per-item acceptance decision of `fetch_google_news_rss`. -/
def acceptRss : Option String × Option String → Option NewsItem
  | (some t, some l) =>
    if t ≠ "" ∧ l ≠ "" then
      let title := clean_title t
      if should_exclude_text title then none
      else some (mkGoogleItem title l)
    else none
  | _ => none

theorem rssStep_eq (it : Option String × Option String) (arr : List NewsItem) :
    rssStep it arr = arr ++ (acceptRss it).toList := by
  rcases it with ⟨t?, l?⟩
  cases t? with
  | none => simp [rssStep, acceptRss]
  | some t =>
    cases l? with
    | none => simp [rssStep, acceptRss]
    | some l =>
      by_cases h1 : t ≠ "" ∧ l ≠ ""
      · by_cases h2 : should_exclude_text (clean_title t) = true
        · simp [rssStep, acceptRss, h1, h2]
        · simp [rssStep, acceptRss, h1, h2]
      · simp [rssStep, acceptRss, h1]

theorem rss_foldl_eq (l : List (Option String × Option String)) (arr : List NewsItem) :
    l.foldl (fun arr it => rssStep it arr) arr = arr ++ l.filterMap acceptRss := by
  induction l generalizing arr with
  | nil => simp
  | cons it l ih =>
    rw [List.foldl_cons, ih, rssStep_eq, List.filterMap_cons]
    cases acceptRss it <;> simp

/-- `fetch_google_news_rss` is acceptance filtered over the first
`MAX_NEWS_ITEMS` items, in document order. -/
theorem fetch_rss_eq_filterMap (items : List (Option String × Option String)) :
    fetch_google_news_rss items = (items.take MAX_NEWS_ITEMS).filterMap acceptRss := by
  rw [fetch_google_news_rss, rss_foldl_eq, List.nil_append]

theorem acceptRss_some {it : Option String × Option String} {r : NewsItem}
    (h : acceptRss it = some r) :
    should_exclude_text r.text = false ∧ r.url ≠ "" := by
  rcases it with ⟨t?, l?⟩
  cases t? with
  | none => simp [acceptRss] at h
  | some t =>
    cases l? with
    | none => simp [acceptRss] at h
    | some l =>
      simp only [acceptRss] at h
      split_ifs at h with h1 h2
      injection h with h3
      subst h3
      exact ⟨Bool.of_not_eq_true h2, h1.2⟩

theorem filterMap_length_all_some {α β : Type} {f : α → Option β} :
    ∀ {l : List α}, (∀ x ∈ l, (f x).isSome) → (l.filterMap f).length = l.length := by
  intro l
  induction l with
  | nil => simp
  | cons a l ih =>
    intro h
    obtain ⟨b, hb⟩ := Option.isSome_iff_exists.mp (h a (List.mem_cons_self a l))
    rw [List.filterMap_cons, hb]
    simp only [List.length_cons]
    rw [ih (fun x hx => h x (List.mem_cons_of_mem a hx))]

/-! ## Claim theorems -/

/-- C1: the three strategies of the Tiered Markup Extractor are tried
in order and the cascade stops at the first strategy that accepts at
least one record: strategy B runs only if A accepted zero records,
strategy C only if A and B both accepted zero; when A accepts at least
one record the result is exactly the A output and the later strategy
inputs are never consulted. -/
theorem c1_cascade_stops_at_first (m1 : List (String × String))
    (m2 m2' : List (String × String × String)) (m3 m3' : List (String × String)) :
    (strategyA m1 ≠ [] →
      parse_yahoo_html m1 m2 m3 = strategyA m1 ∧
      parse_yahoo_html m1 m2 m3 = parse_yahoo_html m1 m2' m3') ∧
    (strategyA m1 = [] → strategyB m2 ≠ [] →
      parse_yahoo_html m1 m2 m3 = strategyB m2 ∧
      parse_yahoo_html m1 m2 m3 = parse_yahoo_html m1 m2 m3') ∧
    (strategyA m1 = [] → strategyB m2 = [] →
      parse_yahoo_html m1 m2 m3 = strategyC m3) := by
  refine ⟨?_, ?_, ?_⟩
  · intro hA
    rw [strategyA] at hA
    have e1 : ¬((stratLoop stepA m1 []).length = 0) := by
      rw [List.length_eq_zero]; exact hA
    constructor
    · simp only [parse_yahoo_html, strategyA]
      rw [if_neg e1, if_neg e1]
    · simp only [parse_yahoo_html]
      rw [if_neg e1, if_neg e1, if_neg e1, if_neg e1]
  · intro hA hB
    rw [strategyA] at hA
    rw [strategyB] at hB
    have e1 : (stratLoop stepA m1 []).length = 0 := by rw [hA]; rfl
    have e2 : ¬((stratLoop stepB m2 (stratLoop stepA m1 [])).length = 0) := by
      rw [hA, List.length_eq_zero]; exact hB
    constructor
    · simp only [parse_yahoo_html, strategyB]
      rw [if_pos e1, if_neg e2, hA]
    · simp only [parse_yahoo_html]
      rw [if_pos e1, if_neg e2, if_neg e2]
  · intro hA hB
    rw [strategyA] at hA
    rw [strategyB] at hB
    have e1 : (stratLoop stepA m1 []).length = 0 := by rw [hA]; rfl
    have e2 : (stratLoop stepB m2 (stratLoop stepA m1 [])).length = 0 := by
      rw [hA, hB]; rfl
    simp only [parse_yahoo_html, strategyC]
    rw [if_pos e1, if_pos e2, hA, hB]

/-- Witness for C1 at a concrete document where strategy A accepts one
record: the later inputs are irrelevant and the result is A's. -/
theorem c1_cascade_stops_at_first_witness :
    strategyA [("https://tw.news.yahoo.com/articles/x", "hello world title")] ≠ [] ∧
    parse_yahoo_html [("https://tw.news.yahoo.com/articles/x", "hello world title")]
        [("cls", "u2", "other title two")] [("u3", "some other long title")] =
      strategyA [("https://tw.news.yahoo.com/articles/x", "hello world title")] ∧
    parse_yahoo_html [("https://tw.news.yahoo.com/articles/x", "hello world title")]
        [("cls", "u2", "other title two")] [("u3", "some other long title")] =
      parse_yahoo_html [("https://tw.news.yahoo.com/articles/x", "hello world title")] [] [] := by
  have h := (c1_cascade_stops_at_first
    [("https://tw.news.yahoo.com/articles/x", "hello world title")]
    [("cls", "u2", "other title two")] [] [("u3", "some other long title")] []).1 (by decide)
  exact ⟨by decide, h.1, h.2⟩

/-- C2 counterexample: the Structured Feed Extractor never applies the
Link Filter, so it accepts a record whose link does not start with
`http://` or `https://`. -/
theorem c2_record_invariants_counterexample :
    fetch_google_news_rss [(some "hello world news", some "ftp://example.com")] =
      [mkGoogleItem "hello world news" "ftp://example.com"] ∧
    (pyStartsWith "ftp://example.com" "http://" ||
      pyStartsWith "ftp://example.com" "https://") = false :=
  ⟨by decide, by decide⟩

/-- C2 amended: every accepted record has a title of stripped length
at least 5; records of the Tiered Markup Extractor additionally have a
link starting with `http://` or `https://`, while feed records only
carry a non-empty link (the feed path never applies the Link
Filter). -/
theorem c2_record_invariants_amended :
    (∀ (items : List (Option String × Option String)) (r : NewsItem),
      r ∈ fetch_google_news_rss items →
        5 ≤ (pyStripL r.text.toList).length ∧ r.url ≠ "") ∧
    (∀ (m1 : List (String × String)) (m2 : List (String × String × String))
      (m3 : List (String × String)) (r : NewsItem),
      r ∈ parse_yahoo_html m1 m2 m3 →
        5 ≤ (pyStripL r.text.toList).length ∧
        (pyStartsWith r.url "http://" || pyStartsWith r.url "https://") = true) := by
  constructor
  · intro items r h
    rw [fetch_rss_eq_filterMap] at h
    obtain ⟨it, hit, hsome⟩ := List.mem_filterMap.mp h
    obtain ⟨h1, h2⟩ := acceptRss_some hsome
    exact ⟨strip_len_of_text_ok h1, h2⟩
  · intro m1 m2 m3 r h
    obtain ⟨h1, h2⟩ := parse_yahoo_html_mem h
    exact ⟨strip_len_of_text_ok h1, scheme_of_url_ok h2⟩

/-- Witness for C2 amended on a concrete accepted feed record. -/
theorem c2_record_invariants_amended_witness :
    5 ≤ (pyStripL (mkGoogleItem "hello world news" "ftp://example.com").text.toList).length ∧
    (mkGoogleItem "hello world news" "ftp://example.com").url ≠ "" :=
  c2_record_invariants_amended.1 [(some "hello world news", some "ftp://example.com")]
    (mkGoogleItem "hello world news" "ftp://example.com") (by decide)

/-- C3 counterexample: the source slices the item list to 15 before
filtering (`items[:MAX_NEWS_ITEMS]`), so on a 16-item document whose
first item is filtered out it returns 14 records and stops without
exhausting the document, while the spec-worded extractor (stop after 15
accepted records or document end) returns 15. -/
theorem c3_feed_counterexample :
    (fetch_google_news_rss ((some "abc", some "https://example.com/a") ::
        List.replicate 15 (some "good news headline", some "https://example.com/x"))).length
      = 14 ∧
    (fetch_rss_spec ((some "abc", some "https://example.com/a") ::
        List.replicate 15 (some "good news headline", some "https://example.com/x"))).length
      = 15 ∧
    fetch_google_news_rss ((some "abc", some "https://example.com/a") ::
        List.replicate 15 (some "good news headline", some "https://example.com/x")) ≠
      fetch_rss_spec ((some "abc", some "https://example.com/a") ::
        List.replicate 15 (some "good news headline", some "https://example.com/x")) :=
  ⟨by decide, by decide, by decide⟩

/-- C3 amended: the Structured Feed Extractor examines exactly the
first `MAX_NEWS_ITEMS` items and keeps, in document order, those that
pass the acceptance test; in particular a 20-item document whose items
are all accepted yields exactly 15 records. -/
theorem c3_feed_cap_amended :
    (∀ items : List (Option String × Option String),
      fetch_google_news_rss items = (items.take MAX_NEWS_ITEMS).filterMap acceptRss) ∧
    (∀ items : List (Option String × Option String),
      items.length = 20 → (∀ it ∈ items, (acceptRss it).isSome) →
      (fetch_google_news_rss items).length = 15) := by
  refine ⟨fetch_rss_eq_filterMap, ?_⟩
  intro items hlen hall
  rw [fetch_rss_eq_filterMap,
    filterMap_length_all_some (fun x hx => hall x (List.take_subset _ _ hx)),
    List.length_take, hlen]
  decide

/-- Witness for C3 amended on a concrete 20-item all-accepted
document. -/
theorem c3_feed_cap_amended_witness :
    (fetch_google_news_rss
      (List.replicate 20 (some "good news headline", some "https://example.com/x"))).length
      = 15 :=
  c3_feed_cap_amended.2
    (List.replicate 20 (some "good news headline", some "https://example.com/x"))
    (by decide)
    (by
      intro it hit
      rw [List.eq_of_mem_replicate hit]
      decide)

/-- C4 counterexample: `clean_title` is not idempotent — the
dash-suffix substitution strips one trailing `- source` segment per
call, so a title with two dashes loses another segment on the second
run. -/
theorem c4_normalizer_counterexample :
    clean_title (clean_title "a - b - c") ≠ clean_title "a - b - c" ∧
    clean_title "a - b - c" = "a - b" ∧ clean_title "a - b" = "a" :=
  ⟨by decide, by decide, by decide⟩

/-- C4 amended: the Normalizer is idempotent on every input that holds
no `-` (so the dash-suffix substitutions cannot fire) and no `&` (so
entity decoding cannot fire); on such inputs it reduces to a strip,
which is idempotent. -/
theorem c4_normalizer_idempotent_amended (x : String)
    (h1 : '&' ∉ x.toList) (h2 : '-' ∉ x.toList) :
    clean_title (clean_title x) = clean_title x := by
  by_cases hx : x.toList.isEmpty
  · simp only [clean_title, if_pos hx]
  · have hcx : clean_title x = String.mk (pyStripL x.toList) := by
      rw [clean_title, if_neg hx, clean_titleL_no_special h1 h2]
    rw [hcx]
    have hm1 : '&' ∉ pyStripL x.toList := fun hmem => h1 (pyStripL_subset hmem)
    have hm2 : '-' ∉ pyStripL x.toList := fun hmem => h2 (pyStripL_subset hmem)
    by_cases hme : (String.mk (pyStripL x.toList)).toList.isEmpty
    · rw [clean_title, if_pos hme]
    · rw [clean_title, if_neg hme]
      show String.mk (clean_titleL (pyStripL x.toList)) = String.mk (pyStripL x.toList)
      rw [clean_titleL_no_special hm1 hm2, pyStripL_idem]

/-- Witness for C4 amended on a concrete dash-free, entity-free
title. -/
theorem c4_normalizer_idempotent_amended_witness :
    ('&' ∉ "hello world".toList) ∧ ('-' ∉ "hello world".toList) ∧
    clean_title (clean_title "hello world") = clean_title "hello world" :=
  ⟨by decide, by decide,
    c4_normalizer_idempotent_amended "hello world" (by decide) (by decide)⟩

/-- C5: when both extractors return zero records the Aggregator output
is byte-for-byte the string the Fallback Generator returns (the source
returns `self.create_fallback_json()` in that branch). -/
theorem c5_fallback_identity (yahoo google : List NewsItem) (cost : Nat)
    (hy : yahoo = []) (hg : google = []) :
    get_hot_words_json yahoo google cost = create_fallback_json := by
  subst hy
  subst hg
  rfl

/-- Witness for C5 at empty extractor outputs and an arbitrary cost
draw. -/
theorem c5_fallback_identity_witness :
    get_hot_words_json [] [] 37 = create_fallback_json :=
  c5_fallback_identity [] [] 37 rfl rfl

/-- C6 counterexample: the claim says an upper-case `HTTP://` url whose
lower-cased form triggers no denylist substring is not excluded, but
the source checks `url.startswith('http://')` on the original,
case-sensitively, and therefore excludes it. -/
theorem c6_link_filter_counterexample :
    should_exclude_url "HTTP://EXAMPLE.ORG/ABC" = true ∧
    "HTTP://EXAMPLE.ORG/ABC" ≠ "" ∧
    exclude_url_patterns.any
      (fun p => isSubL p.toList (pyLowerL "HTTP://EXAMPLE.ORG/ABC".toList)) = false :=
  ⟨by decide, by decide, by decide⟩

/-- C6 amended: the link filter returns true exactly when the url is
empty, or its lower-cased form holds one of the denylist substrings, or
the url does not start — case-sensitively — with `http://` or
`https://`; in particular `javascript:void(0)` is excluded and so is an
upper-case `HTTP://` url. -/
theorem c6_link_filter_characterization :
    (∀ url : String, should_exclude_url url = true ↔
      (url = "" ∨
        (∃ p ∈ exclude_url_patterns, ∃ s t, s ++ p.toList ++ t = pyLowerL url.toList) ∨
        ¬(pyStartsWith url "http://" = true ∨ pyStartsWith url "https://" = true))) ∧
    should_exclude_url "javascript:void(0)" = true ∧
    should_exclude_url "HTTP://EXAMPLE.ORG/ABC" = true := by
  refine ⟨?_, by decide, by decide⟩
  intro url
  rw [should_exclude_url]
  constructor
  · intro h
    split_ifs at h with h1 h2 h3
    · exact Or.inl h1
    · obtain ⟨p, hp, hsub⟩ := List.any_eq_true.mp h2
      exact Or.inr (Or.inl ⟨p, hp, isSubL_iff.mp hsub⟩)
    · rw [Bool.not_eq_true', Bool.or_eq_false_iff] at h3
      refine Or.inr (Or.inr ?_)
      rintro (ha | hb)
      · rw [h3.1] at ha; cases ha
      · rw [h3.2] at hb; cases hb
  · intro h
    by_cases h1 : url = ""
    · rw [if_pos h1]
    · rcases h with h | ⟨p, hp, s, t, hst⟩ | h3
      · exact absurd h h1
      · rw [if_neg h1,
          if_pos (List.any_eq_true.mpr ⟨p, hp, isSubL_iff.mpr ⟨s, t, hst⟩⟩)]
      · rw [if_neg h1]
        by_cases h2 : exclude_url_patterns.any
            (fun p => isSubL p.toList (pyLowerL url.toList)) = true
        · rw [if_pos h2]
        · have h4 : (!(pyStartsWith url "http://" || pyStartsWith url "https://")) = true := by
            rw [Bool.not_eq_true', Bool.or_eq_false_iff]
            push_neg at h3
            exact ⟨Bool.of_not_eq_true h3.1, Bool.of_not_eq_true h3.2⟩
          rw [if_neg h2, if_pos h4]

/-- C7: in strategy C every accepted record carries the captured text
truncated to 255 characters and then normalized, and the captured link
resolved against the base URL: a `./` link is rebased by dropping its
first two characters and prepending the base, a `/` link by prepending
the base; in particular `./articles/123` resolves to
`https://tw.news.yahoo.com/articles/123`. -/
theorem c7_strategyC_truncate_resolve :
    (∀ (m3 : List (String × String)) (r : NewsItem), r ∈ strategyC m3 →
      ∃ p ∈ m3, r.text = clean_title (truncate255 p.2) ∧ r.url = resolve_relative p.1) ∧
    (∀ t : String, 255 < t.toList.length → (truncate255 t).toList.length = 255) ∧
    (∀ u : String, pyStartsWith u "http" = false → pyStartsWith u "./" = true →
      resolve_relative u = YAHOO_NEWS_URL ++ String.mk (u.toList.drop 2)) ∧
    (∀ u : String, pyStartsWith u "http" = false → pyStartsWith u "./" = false →
      pyStartsWith u "/" = true → resolve_relative u = YAHOO_NEWS_URL ++ u) ∧
    resolve_relative "./articles/123" = "https://tw.news.yahoo.com/articles/123" := by
  refine ⟨?_, ?_, ?_, ?_, by decide⟩
  · intro m3 r h
    rcases stratLoop_mem
      (fun p r2 => r2.text = clean_title (truncate255 p.2) ∧ r2.url = resolve_relative p.1)
      (fun m arr r2 h2 => by
        rcases stepC_mem h2 with h3 | h3
        · exact Or.inl h3
        · exact Or.inr ⟨h3.1, h3.2.1⟩) m3 [] r h with h4 | ⟨p, hp, h4⟩
    · cases h4
    · exact ⟨p, hp, h4⟩
  · intro t ht
    rw [truncate255, if_pos ht]
    show (t.toList.take 255).length = 255
    rw [List.length_take]
    omega
  · intro u h1 h2
    rw [resolve_relative, if_neg (by simp [h1]), if_pos h2]
  · intro u h1 h2 h3
    rw [resolve_relative, if_neg (by simp [h1]), if_neg (by simp [h2]), if_pos h3]

/-- Witness for C7 on a concrete strategy C match with a `./` link. -/
theorem c7_strategyC_truncate_resolve_witness :
    ∃ p ∈ [("./articles/123", "this is a long headline")],
      (mkYahooItem "this is a long headline"
        "https://tw.news.yahoo.com/articles/123").text = clean_title (truncate255 p.2) ∧
      (mkYahooItem "this is a long headline"
        "https://tw.news.yahoo.com/articles/123").url = resolve_relative p.1 :=
  c7_strategyC_truncate_resolve.1 [("./articles/123", "this is a long headline")]
    (mkYahooItem "this is a long headline" "https://tw.news.yahoo.com/articles/123")
    (by decide)

/-- C8: the Aggregator never emits a section with zero records — every
section of the assembled `result` list of `get_hot_words_json` has a
non-empty record list, because an empty source is skipped. -/
theorem c8_no_empty_sections (yahoo google : List NewsItem)
    (s : SourceSection) (h : s ∈ build_result yahoo google) : s.data ≠ [] := by
  rw [build_result] at h
  rcases List.mem_append.mp h with h2 | h2
  · by_cases hy : yahoo.isEmpty
    · rw [if_pos hy] at h2; cases h2
    · rw [if_neg hy] at h2
      rw [List.mem_singleton] at h2
      subst h2
      intro hd
      exact hy (List.isEmpty_iff.mpr hd)
  · by_cases hg : google.isEmpty
    · rw [if_pos hg] at h2; cases h2
    · rw [if_neg hg] at h2
      rw [List.mem_singleton] at h2
      subst h2
      intro hd
      exact hg (List.isEmpty_iff.mpr hd)

/-- Witness for C8 on a concrete one-record Yahoo source. -/
theorem c8_no_empty_sections_witness :
    (yahooSection [mkYahooItem "hello world title"
      "https://tw.news.yahoo.com/articles/x"]).data ≠ [] :=
  c8_no_empty_sections
    [mkYahooItem "hello world title" "https://tw.news.yahoo.com/articles/x"] []
    (yahooSection [mkYahooItem "hello world title" "https://tw.news.yahoo.com/articles/x"])
    (by decide)

/-- C9: the Text Normalizer has no error conditions — it is a total
function, returns the empty string unchanged, returns an undefined
(None) title unchanged, and always yields a defined result exactly when
its input is defined. -/
theorem c9_normalizer_total :
    clean_title "" = "" ∧ clean_title_opt none = none ∧
    ∀ o : Option String, (clean_title_opt o).isSome = o.isSome := by
  refine ⟨rfl, rfl, ?_⟩
  intro o
  cases o <;> rfl

/-- C10: the link filter rejects every url that holds a `#` anywhere —
`#` is one of the denylist substrings and lower-casing keeps it — so
even a well-formed https url with a fragment is excluded. -/
theorem c10_fragment_rejected (url : String) (h : '#' ∈ url.toList) :
    should_exclude_url url = true := by
  rw [should_exclude_url]
  have hmem : '#' ∈ pyLowerL url.toList :=
    List.mem_map.mpr ⟨'#', h, by decide⟩
  have hany : exclude_url_patterns.any
      (fun p => isSubL p.toList (pyLowerL url.toList)) = true :=
    List.any_eq_true.mpr ⟨"#", by decide, isSubL_single_of_mem hmem⟩
  by_cases h1 : url = ""
  · rw [if_pos h1]
  · rw [if_neg h1, if_pos hany]

/-- Witness for C10 on a well-formed https url carrying a fragment. -/
theorem c10_fragment_rejected_witness :
    should_exclude_url "https://example.com/page#section" = true :=
  c10_fragment_rejected "https://example.com/page#section" (by decide)

end NewsHotWordProvider
